import Mathlib

/-!
Shallow embedding of the OAuth token-exchange flow of the go.strava client
library (file `oauth.go`), together with theorems checking the library's
specification against it.

The HTTP transport is modelled as a function from (url, form values) to
either a transport-level error or an `HttpResponse` carrying a status code
and a body.  A body is `Option Json`: `none` stands for bytes that are not
syntactically valid JSON, `some j` for bytes whose parse tree is `j`.
Every operation returns, next to its result, the list of network requests
it issued (url and form body), so that "no network call is made" and
"the secret travels only in the POST form body" are statable.
-/

namespace Strava

/-- JSON parse trees, the image of Go's `encoding/json` syntax layer. -/
inductive Json where
  | null : Json
  | bool : Bool → Json
  | num : Int → Json
  | str : String → Json
  | arr : List Json → Json
  | obj : List (String × Json) → Json

/-- Permission mirrors Go's `type Permission string` (oauth.go line 27). -/
abbrev Permission := String

/-- Modelled from the spec: the nested athlete record (`AthleteSummary`) is
declared in a repository file that is not under `src/`; the claims never look
inside it, so it is represented by the raw JSON value it was decoded from. -/
abbrev AthleteSummary := Json

/-- AuthorizationResponse mirrors oauth.go lines 45-52. -/
structure AuthorizationResponse where
  AccessToken : String
  RefreshToken : String
  ExpiresAt : Int
  ExpiresIn : Int
  Athlete : AthleteSummary
  State : String

/-- StravaError mirrors oauth.go lines 55-59; the spec's `ErrorDetail`.
The `Error` type consumed by `Authorize` (declared outside `src/`) has the
same wire shape per spec sections 3 and 6 (`{errors: [{code, field,
resource}], message}`), so this one structure serves both. -/
structure StravaError where
  Code : String
  Field : String
  Resource : String
deriving DecidableEq

/-- StravaErrorResponse mirrors oauth.go lines 62-65; the spec's `ErrorResponse`. -/
structure StravaErrorResponse where
  Errors : List StravaError
  Message : String
deriving DecidableEq

/-- Modelled from the spec: the domain error kinds of spec section 7.  The
error values `OAuthInvalidCodeErr`, `OAuthServerErr`,
`OAuthInvalidCredentialsErr`, `OAuthAuthorizationDeniedErr` are declared in a
repository file not under `src/`; each is one constructor here.  `apiError`
is `Authorize` returning the parsed error response itself as the error value
(oauth.go line 163); `generic` is an `errors.New` string error; `malformedResponse`
is the JSON decode error surfaced on a 2xx body; `transportError` a failed POST. -/
inductive OAuthError where
  | invalidCode : OAuthError
  | serverError : OAuthError
  | invalidCredentials : OAuthError
  | authorizationDenied : OAuthError
  | apiError : StravaErrorResponse → OAuthError
  | generic : String → OAuthError
  | malformedResponse : String → OAuthError
  | transportError : String → OAuthError
deriving DecidableEq

/-- Form values of a POST body, `url.Values` restricted to single-valued keys
(the only shape this library builds). -/
abbrev FormValues := List (String × String)

/-- An HTTP response as the library observes it: status code and body bytes,
the body already split into "not JSON" (`none`) versus its parse tree. -/
structure HttpResponse where
  status : Nat
  body : Option Json

/-- A transport: takes the request url and form body, returns a
transport-level failure or a response.  Substitutes Go's `*http.Client`. -/
abbrev Transport := String → FormValues → Except String HttpResponse

/-- The inbound callback request, reduced to the three query parameters the
handler consumes (`r.FormValue` on `error`, `code`, `state`). -/
structure Request where
  error : String
  code : String
  state : String

/-- OAuthAuthenticator mirrors oauth.go lines 14-23. -/
structure OAuthAuthenticator where
  CallbackURL : String
  RequestClientGenerator : Option (Request → Transport)

/-- Modelled from the spec: the process-wide configuration of spec section 6
(numeric client id, client secret string, API base path), declared in a
repository file not under `src/`; `defaultClient` stands for the global
`http.DefaultClient`. -/
structure GlobalConfig where
  ClientId : Int
  ClientSecret : String
  basePath : String
  defaultClient : Transport

/-- Decimal digits of a natural number, Go's `fmt.Sprintf("%d", n)` for
`n ≥ 0`; `Nat.toDigits` is the standard most-significant-first rendering. -/
def natReprChars (n : Nat) : List Char := Nat.toDigits 10 n

/-- Decimal rendering of an integer, Go's `fmt.Sprintf("%d", i)`. -/
def intRepr (i : Int) : String :=
  if i < 0 then String.mk ('-' :: natReprChars i.natAbs) else String.mk (natReprChars i.toNat)

/-- First binding of `key` in a JSON object's field list. -/
def lookupField (fields : List (String × Json)) (key : String) : Option Json :=
  match fields with
  | [] => none
  | (k, v) :: rest => if k = key then some v else lookupField rest key

/-- Json projection to a string. -/
def asString : Json → Option String
  | .str s => some s
  | _ => none

/-- Json projection to an integer. -/
def asInt : Json → Option Int
  | .num n => some n
  | _ => none

/-- Strict decode of a string-typed struct field: an absent key yields Go's
zero value `""`, a present key must hold a JSON string. -/
def decodeStrField (fields : List (String × Json)) (key : String) : Option String :=
  match lookupField fields key with
  | none => some ""
  | some j => asString j

/-- Strict decode of an int64-typed struct field: absent key yields `0`, a
present key must hold a JSON number. -/
def decodeIntField (fields : List (String × Json)) (key : String) : Option Int :=
  match lookupField fields key with
  | none => some 0
  | some j => asInt j

/-- Lenient decode of a string field: any failure yields the zero value,
mirroring `json.Unmarshal` whose error the caller ignores. -/
def strFieldD (fields : List (String × Json)) (key : String) : String :=
  ((lookupField fields key).bind asString).getD ""

/-- Lenient decode of one element of the `errors` array. -/
def decodeStravaError1 (j : Json) : StravaError :=
  match j with
  | .obj fields =>
      { Code := strFieldD fields "code"
        Field := strFieldD fields "field"
        Resource := strFieldD fields "resource" }
  | _ => { Code := "", Field := "", Resource := "" }

/-- Best-effort decode of an error body into `StravaErrorResponse`:
`json.Unmarshal` with its error ignored (oauth.go lines 103 and 149), so an
unparsable or ill-shaped body leaves the zero value (empty error list). -/
def decodeStravaErrorResponse (body : Option Json) : StravaErrorResponse :=
  match body with
  | some (.obj fields) =>
      { Errors :=
          match lookupField fields "errors" with
          | some (.arr xs) => xs.map decodeStravaError1
          | _ => []
        Message := strFieldD fields "message" }
  | _ => { Errors := [], Message := "" }

/-- The zero value of `AuthorizationResponse`. -/
def AuthorizationResponse.zero : AuthorizationResponse :=
  { AccessToken := "", RefreshToken := "", ExpiresAt := 0, ExpiresIn := 0,
    Athlete := Json.null, State := "" }

/-- Strict decode of a 2xx body into `AuthorizationResponse`, the
`json.Unmarshal` whose error `Authorize` and `ExchangeToken` surface:
a non-JSON body or a non-object, non-null top level fails; a JSON `null` is
Go's no-op unmarshal into a struct; in an object, each tagged field must
have the tagged type when present and defaults to the zero value when
absent; the `athlete` subtree is kept as parsed (its struct lives outside
`src/`). -/
def decodeAuthResponse (body : Option Json) : Except String AuthorizationResponse :=
  match body with
  | none => .error "invalid character in body"
  | some .null => .ok AuthorizationResponse.zero
  | some (.obj fields) =>
      match decodeStrField fields "access_token", decodeStrField fields "refresh_token",
            decodeIntField fields "expires_at", decodeIntField fields "expires_in",
            decodeStrField fields "State" with
      | some a, some r, some ea, some ei, some st =>
          .ok { AccessToken := a, RefreshToken := r, ExpiresAt := ea, ExpiresIn := ei,
                Athlete := (lookupField fields "athlete").getD Json.null, State := st }
      | _, _, _, _, _ => .error "cannot unmarshal into AuthorizationResponse"
  | some _ => .error "cannot unmarshal into AuthorizationResponse"

/-- Go's `url.Values.Set`: replace every binding of `k` by the single value `v`. -/
def setValue (vs : FormValues) (k v : String) : FormValues :=
  vs.filter (fun p => p.1 != k) ++ [(k, v)]

/-- First binding of `k` in form values. -/
def lookupForm (vs : FormValues) (k : String) : Option String :=
  match vs with
  | [] => none
  | (k', v) :: rest => if k' = k then some v else lookupForm rest k

/-- ExchangeToken mirrors oauth.go lines 83-116: inject `client_id` and
`client_secret` into the caller's form values, POST them to `/oauth/token`
with the default client, and on a non-2xx status parse the body as a
`StravaErrorResponse` (result unused, as in the source) and return the
generic error `"Strava API error"`; on 2xx decode the body, surfacing the
decode error.  The second component logs the requests issued. -/
def ExchangeToken (g : GlobalConfig) (values : FormValues) :
    Except OAuthError AuthorizationResponse × List (String × FormValues) :=
  let values := setValue values "client_id" (intRepr g.ClientId)
  let values := setValue values "client_secret" g.ClientSecret
  let url := g.basePath ++ "/oauth/token"
  match g.defaultClient url values with
  | .error e => (.error (.transportError e), [(url, values)])
  | .ok resp =>
      if resp.status / 100 ≠ 2 then
        let _ := decodeStravaErrorResponse resp.body
        (.error (.generic "Strava API error"), [(url, values)])
      else
        match decodeAuthResponse resp.body with
        | .error e => (.error (.malformedResponse e), [(url, values)])
        | .ok r => (.ok r, [(url, values)])

/-- Authorize mirrors oauth.go lines 121-175: reject an empty code locally;
otherwise POST `client_id`, `client_secret`, `code` to `/oauth/token` with
the supplied client (default client when none); a 5xx status is a server
error without looking at the body; any other non-2xx status classifies the
best-effort-parsed error body by its first error's resource; a 2xx body is
decoded strictly.  The second component logs the requests issued. -/
def Authorize (g : GlobalConfig) (code : String) (client : Option Transport) :
    Except OAuthError AuthorizationResponse × List (String × FormValues) :=
  if code = "" then (.error .invalidCode, [])
  else
    let t := client.getD g.defaultClient
    let url := g.basePath ++ "/oauth/token"
    let form : FormValues :=
      [("client_id", intRepr g.ClientId), ("client_secret", g.ClientSecret), ("code", code)]
    match t url form with
    | .error e => (.error (.transportError e), [(url, form)])
    | .ok resp =>
        if resp.status / 100 = 5 then (.error .serverError, [(url, form)])
        else if resp.status / 100 ≠ 2 then
          let er := decodeStravaErrorResponse resp.body
          match er.Errors with
          | [] => (.error .serverError, [(url, form)])
          | e0 :: _ =>
              if e0.Resource = "Application" then (.error .invalidCredentials, [(url, form)])
              else if e0.Resource = "RequestToken" then (.error .invalidCode, [(url, form)])
              else (.error (.apiError er), [(url, form)])
        else
          match decodeAuthResponse resp.body with
          | .error e => (.error (.malformedResponse e), [(url, form)])
          | .ok r => (.ok r, [(url, form)])

/-- Transport selection of the handler, oauth.go lines 192-195: the
authenticator's client generator applied to the inbound request when
present, else the default client. -/
def handlerClient (g : GlobalConfig) (auth : OAuthAuthenticator) (req : Request) : Transport :=
  match auth.RequestClientGenerator with
  | some gen => gen req
  | none => g.defaultClient

/-- Outcome of one run of the callback handler: exactly one of the two
continuations is invoked, with its argument. -/
inductive HandlerOutcome where
  | success : AuthorizationResponse → HandlerOutcome
  | failure : OAuthError → HandlerOutcome

/-- HandlerFunc mirrors oauth.go lines 180-208: on `error=access_denied`
immediately fail with the denied error; otherwise run `Authorize` on the
`code` parameter with the selected client, routing an error to the failure
continuation, and on success overwrite the response's `State` with the
`state` query parameter before invoking the success continuation.  The
second component logs the requests issued. -/
def HandlerFunc (g : GlobalConfig) (auth : OAuthAuthenticator) (req : Request) :
    HandlerOutcome × List (String × FormValues) :=
  if req.error = "access_denied" then (.failure .authorizationDenied, [])
  else
    let client := handlerClient g auth req
    let res := Authorize g req.code (some client)
    match res.1 with
    | .error e => (.failure e, res.2)
    | .ok resp => (.success { resp with State := req.state }, res.2)

/-- AuthorizationURL method mirrors oauth.go lines 211-223: unconditional
string formatting, then `&state=` appended exactly when `state` is
non-empty, then `&approval_prompt=force` exactly when `force`. -/
def OAuthAuthenticator.AuthorizationURL (g : GlobalConfig) (auth : OAuthAuthenticator)
    (state : String) (scope : Permission) (force : Bool) : String :=
  let path := g.basePath ++ "/oauth/authorize?client_id=" ++ intRepr g.ClientId ++
    "&response_type=code&redirect_uri=" ++ auth.CallbackURL ++ "&scope=" ++ scope
  let path := if state ≠ "" then path ++ "&state=" ++ state else path
  if force then path ++ "&approval_prompt=force" else path

/-- Package-level AuthorizationURL mirrors oauth.go lines 226-237: reject a
zero or negative client id, an empty callback URL, or an empty scope, each
with its configuration error message; otherwise format the URL. -/
def AuthorizationURL (g : GlobalConfig) (callbackURL : String) (scope : Permission) :
    Except String String :=
  if g.ClientId = 0 ∨ g.ClientId < 0 then .error "clientId is empty"
  else if callbackURL = "" then .error "callbackURL is empty"
  else if scope = "" then .error "scope is empty"
  else .ok (g.basePath ++ "/oauth/authorize?client_id=" ++ intRepr g.ClientId ++
    "&response_type=code&redirect_uri=" ++ callbackURL ++ "&scope=" ++ scope)

/-- Spec-side error classification, written from the words of the spec
(section 4.2 steps 4-5, as quoted by claim C1): a status in 500-599 yields
the server error without consulting the body; any other status parses the
body best-effort; an empty error list yields the server error; otherwise the
first error's resource selects the kind. -/
def specClassify (status : Nat) (body : Option Json) : OAuthError :=
  if 500 ≤ status ∧ status ≤ 599 then .serverError
  else
    let er := decodeStravaErrorResponse body
    match er.Errors with
    | [] => .serverError
    | e0 :: _ =>
        if e0.Resource = "Application" then .invalidCredentials
        else if e0.Resource = "RequestToken" then .invalidCode
        else .apiError er

/-- Number of positions of `s` at which `pat` occurs as a contiguous substring. -/
def countOcc (pat : List Char) : List Char → Nat
  | [] => 0
  | c :: rest => (if pat <+: c :: rest then 1 else 0) + countOcc pat rest

/-- The ten decimal digit characters. -/
def digitList : List Char := ['0', '1', '2', '3', '4', '5', '6', '7', '8', '9']

/-- The query-parameter names whose substring occurrences claim C9 counts. -/
def paramNames : List (List Char) :=
  ["client_id".toList, "redirect_uri".toList, "scope".toList,
   "state".toList, "approval_prompt".toList]

/-- A string avoids the parameter names when none of them occurs in it as a
substring. -/
abbrev avoidsParamNames (s : String) : Prop :=
  ∀ pat ∈ paramNames, countOcc pat s.toList = 0

/-- A concrete configuration used to instantiate theorems with hypotheses:
its default client fails, so any result reached through it would be a
transport error. -/
def cfgW : GlobalConfig :=
  { ClientId := 42, ClientSecret := "hush", basePath := "https://www.strava.com/api/v3",
    defaultClient := fun _ _ => .error "no network" }

/-- A concrete 404 response whose first error detail has resource
`Application`. -/
def respApp : HttpResponse :=
  { status := 404,
    body := some (.obj [("message", .str "Bad Request"),
      ("errors", .arr [.obj [("code", .str "invalid"), ("field", .str "client_id"),
        ("resource", .str "Application")]])]) }

/-- A concrete 200 response with a well-formed authorization body. -/
def respOk : HttpResponse :=
  { status := 200,
    body := some (.obj [("access_token", .str "tok"), ("refresh_token", .str "ref"),
      ("expires_at", .num 100), ("expires_in", .num 60),
      ("athlete", .obj [("id", .num 7)])]) }

/-- The configuration whose default client always delivers `respApp`. -/
def cfgApp : GlobalConfig := { cfgW with defaultClient := fun _ _ => .ok respApp }

/-- The configuration whose default client always delivers `respOk`. -/
def cfgOk : GlobalConfig := { cfgW with defaultClient := fun _ _ => .ok respOk }

/-- The authorization URL built from `cfgW` and a callback URL whose path
contains the word `state`. -/
def urlStateCb : String :=
  "https://www.strava.com/api/v3/oauth/authorize?client_id=42&response_type=code&redirect_uri=http://mysite.example/state/cb&scope=public"

/-! ## Helper lemmas -/

/-- String concatenation concatenates the character lists. -/
theorem strToList_append (s t : String) : (s ++ t).toList = s.toList ++ t.toList := rfl

/-- Looking up a key right after `setValue` set it yields the value just set. -/
theorem lookupForm_append_last (k v : String) :
    ∀ l : FormValues, (∀ p ∈ l, p.1 ≠ k) → lookupForm (l ++ [(k, v)]) k = some v := by
  intro l
  induction l with
  | nil => intro _; simp [lookupForm]
  | cons p rest ih =>
      intro h
      have hne : p.1 ≠ k := h p (List.mem_cons_self p rest)
      simp only [List.cons_append, lookupForm, if_neg hne]
      exact ih fun q hq => h q (List.mem_cons_of_mem p hq)

/-- `setValue` makes `k` map to `v`. -/
theorem lookupForm_setValue (vs : FormValues) (k v : String) :
    lookupForm (setValue vs k v) k = some v := by
  refine lookupForm_append_last k v _ fun p hp => ?_
  have := List.of_mem_filter hp
  simpa using this

/-- The token-exchange POST always carries exactly one request, whose form is
the caller values with `client_id` and `client_secret` injected. -/
theorem exchangeToken_log (g : GlobalConfig) (values : FormValues) :
    (ExchangeToken g values).2 =
      [(g.basePath ++ "/oauth/token",
        setValue (setValue values "client_id" (intRepr g.ClientId))
          "client_secret" g.ClientSecret)] := by
  simp only [ExchangeToken]
  split
  · rfl
  · split
    · rfl
    · split <;> rfl

/-- A successful strict decode of an object body pins every field of the
result to the corresponding JSON field. -/
theorem decodeAuthResponse_fields (fields : List (String × Json)) (r : AuthorizationResponse)
    (h : decodeAuthResponse (some (.obj fields)) = .ok r) :
    decodeStrField fields "access_token" = some r.AccessToken ∧
    decodeStrField fields "refresh_token" = some r.RefreshToken ∧
    decodeIntField fields "expires_at" = some r.ExpiresAt ∧
    decodeIntField fields "expires_in" = some r.ExpiresIn ∧
    r.Athlete = (lookupField fields "athlete").getD Json.null ∧
    decodeStrField fields "State" = some r.State := by
  simp only [decodeAuthResponse] at h
  split at h
  · rename_i a rt ea ei st ha hrt hea hei hst
    injection h with h
    subst h
    exact ⟨ha, hrt, hea, hei, rfl, hst⟩
  · exact Except.noConfusion h

/-! ## Claims -/

/-- C3: for every configuration and every transport (including none
supplied), `Authorize` with the empty code returns the invalid-code error
and issues no network request. -/
theorem authorize_empty_code (g : GlobalConfig) (client : Option Transport) :
    Authorize g "" client = (.error .invalidCode, []) := rfl

/-- C5: a callback request whose `error` query parameter is `access_denied`
makes the handler invoke the failure continuation with the denied error, not
the success continuation, and issue no network request. -/
theorem handler_access_denied (g : GlobalConfig) (auth : OAuthAuthenticator) (req : Request)
    (h : req.error = "access_denied") :
    HandlerFunc g auth req = (.failure .authorizationDenied, []) := by
  simp [HandlerFunc, h]

/-- C5 witness. -/
theorem handler_access_denied_witness :
    HandlerFunc cfgW ⟨"http://cb", none⟩ ⟨"access_denied", "c", "s"⟩ =
      (.failure .authorizationDenied, []) :=
  handler_access_denied cfgW ⟨"http://cb", none⟩ ⟨"access_denied", "c", "s"⟩ rfl

/-- C10: the authenticator's `AuthorizationURL` method validates nothing and
has no failure result: for every configured client id (zero and negative
included), every callback URL and scope (empty included) and every state, it
returns the formatted URL, with `&state=<s>` appended exactly when the state
is non-empty and `&approval_prompt=force` appended exactly when `force`. -/
theorem method_authorization_url_total (g : GlobalConfig) (auth : OAuthAuthenticator)
    (state : String) (scope : Permission) (force : Bool) :
    (state = "" → force = false →
      OAuthAuthenticator.AuthorizationURL g auth state scope force =
        g.basePath ++ "/oauth/authorize?client_id=" ++ intRepr g.ClientId ++
          "&response_type=code&redirect_uri=" ++ auth.CallbackURL ++ "&scope=" ++ scope) ∧
    (state ≠ "" → force = false →
      OAuthAuthenticator.AuthorizationURL g auth state scope force =
        g.basePath ++ "/oauth/authorize?client_id=" ++ intRepr g.ClientId ++
          "&response_type=code&redirect_uri=" ++ auth.CallbackURL ++ "&scope=" ++ scope ++
          "&state=" ++ state) ∧
    (state = "" → force = true →
      OAuthAuthenticator.AuthorizationURL g auth state scope force =
        g.basePath ++ "/oauth/authorize?client_id=" ++ intRepr g.ClientId ++
          "&response_type=code&redirect_uri=" ++ auth.CallbackURL ++ "&scope=" ++ scope ++
          "&approval_prompt=force") ∧
    (state ≠ "" → force = true →
      OAuthAuthenticator.AuthorizationURL g auth state scope force =
        g.basePath ++ "/oauth/authorize?client_id=" ++ intRepr g.ClientId ++
          "&response_type=code&redirect_uri=" ++ auth.CallbackURL ++ "&scope=" ++ scope ++
          "&state=" ++ state ++ "&approval_prompt=force") := by
  refine ⟨fun hs hf => ?_, fun hs hf => ?_, fun hs hf => ?_, fun hs hf => ?_⟩ <;>
    simp [OAuthAuthenticator.AuthorizationURL, hs, hf]

/-- C10 witness. -/
theorem method_authorization_url_total_witness :
    ("abc" : String) ≠ "" ∧
    OAuthAuthenticator.AuthorizationURL cfgW ⟨"http://cb", none⟩ "abc" "public" true =
      "https://www.strava.com/api/v3/oauth/authorize?client_id=42&response_type=code&redirect_uri=http://cb&scope=public&state=abc&approval_prompt=force" :=
  ⟨by decide,
    (method_authorization_url_total cfgW ⟨"http://cb", none⟩ "abc" "public" true).2.2.2
      (by decide) rfl⟩

/-- C7: the package-level `AuthorizationURL` fails exactly when the
configured client id is zero or negative, the callback URL is empty, or the
scope is empty; on every other input it returns the `/oauth/authorize` URL
carrying `client_id`, `response_type=code`, `redirect_uri` and `scope`.  No
network request is modelled because the function consists of string tests
and formatting only. -/
theorem authorization_url_configuration (g : GlobalConfig) (cb : String) (scope : Permission) :
    ((∃ e, AuthorizationURL g cb scope = .error e) ↔
      (g.ClientId ≤ 0 ∨ cb = "" ∨ scope = "")) ∧
    (0 < g.ClientId → cb ≠ "" → scope ≠ "" →
      AuthorizationURL g cb scope =
        .ok (g.basePath ++ "/oauth/authorize?client_id=" ++ intRepr g.ClientId ++
          "&response_type=code&redirect_uri=" ++ cb ++ "&scope=" ++ scope)) := by
  constructor
  · constructor
    · rintro ⟨e, he⟩
      by_contra hn
      push_neg at hn
      obtain ⟨h1, h2, h3⟩ := hn
      rw [AuthorizationURL, if_neg (by omega), if_neg h2, if_neg h3] at he
      exact Except.noConfusion he
    · intro h
      by_cases hid : g.ClientId = 0 ∨ g.ClientId < 0
      · exact ⟨"clientId is empty", by rw [AuthorizationURL, if_pos hid]⟩
      · by_cases hcb : cb = ""
        · exact ⟨"callbackURL is empty", by rw [AuthorizationURL, if_neg hid, if_pos hcb]⟩
        · have hsc : scope = "" := by
            rcases h with h | h | h
            · exact absurd h (by omega)
            · exact absurd h hcb
            · exact h
          exact ⟨"scope is empty",
            by rw [AuthorizationURL, if_neg hid, if_neg hcb, if_pos hsc]⟩
  · intro h1 h2 h3
    rw [AuthorizationURL, if_neg (by omega), if_neg h2, if_neg h3]

/-- C7 witness. -/
theorem authorization_url_configuration_witness :
    (0 : Int) < 42 ∧ ("http://cb" : String) ≠ "" ∧ ("public" : String) ≠ "" ∧
    AuthorizationURL cfgW "http://cb" "public" =
      .ok "https://www.strava.com/api/v3/oauth/authorize?client_id=42&response_type=code&redirect_uri=http://cb&scope=public" :=
  ⟨by decide, by decide, by decide,
    (authorization_url_configuration cfgW "http://cb" "public").2 (by decide) (by decide)
      (by decide)⟩

/-- C8: the authorization URL is independent of the client secret — both
builders produce identical output under any two secrets with all other
inputs fixed, so no part of the URL is derived from the secret — while the
secret does travel in the form body of the token-exchange POST, whose sole
logged request maps `client_secret` to it. -/
theorem authorization_url_secret_independent (g : GlobalConfig) (s1 s2 : String)
    (auth : OAuthAuthenticator) (state : String) (scope : Permission) (force : Bool)
    (cb : String) (values : FormValues) :
    OAuthAuthenticator.AuthorizationURL { g with ClientSecret := s1 } auth state scope force =
      OAuthAuthenticator.AuthorizationURL { g with ClientSecret := s2 } auth state scope force ∧
    AuthorizationURL { g with ClientSecret := s1 } cb scope =
      AuthorizationURL { g with ClientSecret := s2 } cb scope ∧
    (ExchangeToken { g with ClientSecret := s1 } values).2.map
        (fun e => lookupForm e.2 "client_secret") = [some s1] := by
  refine ⟨rfl, rfl, ?_⟩
  rw [exchangeToken_log]
  simp [lookupForm_setValue]

/-- C4 amended: for every caller-supplied form values and every non-2xx
response, `ExchangeToken` parses the body as a `StravaErrorResponse` but
discards the result, returning the single generic error `"Strava API
error"`; it performs none of the section 4.2 classification. -/
theorem exchange_token_non2xx_generic (id : Int) (secret bp : String) (values : FormValues)
    (resp : HttpResponse) (h : resp.status / 100 ≠ 2) :
    (ExchangeToken ⟨id, secret, bp, fun _ _ => .ok resp⟩ values).1 =
      .error (.generic "Strava API error") := by
  simp only [ExchangeToken]
  rw [if_pos h]

/-- C4 amended witness. -/
theorem exchange_token_non2xx_generic_witness :
    (404 : Nat) / 100 ≠ 2 ∧
    (ExchangeToken ⟨42, "hush", "https://www.strava.com/api/v3", fun _ _ => .ok respApp⟩ []).1 =
      .error (.generic "Strava API error") :=
  ⟨by decide,
    exchange_token_non2xx_generic 42 "hush" "https://www.strava.com/api/v3" [] respApp
      (by decide)⟩

/-- C4 counterexample: with a stubbed default client delivering a 404 whose
first error detail has resource `Application`, `ExchangeToken` does not
return the invalid-credentials error the claim requires — it returns the
generic error. -/
theorem exchange_token_not_classified :
    respApp.status / 100 ≠ 2 ∧
    (decodeStravaErrorResponse respApp.body).Errors.head?.map StravaError.Resource =
      some "Application" ∧
    (ExchangeToken cfgApp []).1 = .error (.generic "Strava API error") ∧
    (ExchangeToken cfgApp []).1 ≠ .error .invalidCredentials := by
  refine ⟨by decide, rfl, rfl, ?_⟩
  intro h
  rw [show (ExchangeToken cfgApp []).1 = .error (.generic "Strava API error") from rfl] at h
  exact OAuthError.noConfusion (Except.error.inj h)

/-- C1: with a non-empty code and a transport delivering a non-2xx response,
`Authorize` returns exactly the error of the spec's classification of
(status, body): 5xx is a server error with the body never consulted, any
other non-2xx classifies the best-effort-parsed error body by its first
error detail's resource. -/
theorem authorize_non2xx_classified (g : GlobalConfig) (code : String) (resp : HttpResponse)
    (hc : code ≠ "") (hs : resp.status / 100 ≠ 2) :
    (Authorize g code (some (fun _ _ => .ok resp))).1 =
      .error (specClassify resp.status resp.body) := by
  by_cases h5 : resp.status / 100 = 5
  · simp [Authorize, specClassify, hc, h5,
      (by omega : 500 ≤ resp.status ∧ resp.status ≤ 599)]
  · simp only [Authorize, specClassify, if_neg hc, Option.getD,
      if_neg (by omega : ¬(500 ≤ resp.status ∧ resp.status ≤ 599))]
    simp only [h5, hs, if_false, ite_not, if_neg h5]
    cases her : (decodeStravaErrorResponse resp.body).Errors with
    | nil => simp [her, hs, h5]
    | cons e0 rest =>
        by_cases hA : e0.Resource = "Application"
        · simp [her, hs, h5, hA]
        · by_cases hR : e0.Resource = "RequestToken"
          · simp [her, hs, h5, hA, hR]
          · simp [her, hs, h5, hA, hR]

/-- C1 witness. -/
theorem authorize_non2xx_classified_witness :
    ("c" : String) ≠ "" ∧ respApp.status / 100 ≠ 2 ∧
    (Authorize cfgW "c" (some (fun _ _ => .ok respApp))).1 =
      .error (specClassify respApp.status respApp.body) ∧
    specClassify respApp.status respApp.body = .invalidCredentials :=
  ⟨by decide, by decide,
    authorize_non2xx_classified cfgW "c" respApp (by decide) (by decide), rfl⟩

/-- C2: with a non-empty code and a transport delivering a 2xx response,
`Authorize` returns the decoded `AuthorizationResponse` when the body
decodes, every field matching the JSON, and the decode error wrapped as the
malformed-response kind when it does not. -/
theorem authorize_2xx_decoded (g : GlobalConfig) (code : String) (resp : HttpResponse)
    (hc : code ≠ "") (hs : resp.status / 100 = 2) :
    ((Authorize g code (some (fun _ _ => .ok resp))).1 =
      match decodeAuthResponse resp.body with
      | .ok r => .ok r
      | .error e => .error (.malformedResponse e)) ∧
    (∀ fields r, resp.body = some (.obj fields) → decodeAuthResponse resp.body = .ok r →
      decodeStrField fields "access_token" = some r.AccessToken ∧
      decodeStrField fields "refresh_token" = some r.RefreshToken ∧
      decodeIntField fields "expires_at" = some r.ExpiresAt ∧
      decodeIntField fields "expires_in" = some r.ExpiresIn ∧
      r.Athlete = (lookupField fields "athlete").getD Json.null ∧
      decodeStrField fields "State" = some r.State) := by
  constructor
  · simp only [Authorize, if_neg hc, Option.getD]
    simp only [hs]
    norm_num
    cases hd : decodeAuthResponse resp.body <;> simp [hd]
  · intro fields r hb hr
    rw [hb] at hr
    exact decodeAuthResponse_fields fields r hr

/-- C2 witness. -/
theorem authorize_2xx_decoded_witness :
    ("c" : String) ≠ "" ∧ respOk.status / 100 = 2 ∧
    (Authorize cfgW "c" (some (fun _ _ => .ok respOk))).1 =
      .ok { AccessToken := "tok", RefreshToken := "ref", ExpiresAt := 100, ExpiresIn := 60,
            Athlete := .obj [("id", .num 7)], State := "" } :=
  ⟨by decide, by decide,
    ((authorize_2xx_decoded cfgW "c" respOk (by decide) (by decide)).1).trans rfl⟩

/-- C6: when the token exchange succeeds, the handler invokes the success
continuation with the authorize result whose `State` field — and only that
field — is overwritten by the request's `state` query parameter; the raw
exchange path itself leaves `State` at whatever the 2xx body decoded. -/
theorem handler_success_state (g : GlobalConfig) (auth : OAuthAuthenticator) (req : Request)
    (r : AuthorizationResponse) (hden : req.error ≠ "access_denied")
    (hok : (Authorize g req.code (some (handlerClient g auth req))).1 = .ok r) :
    (HandlerFunc g auth req).1 = .success { r with State := req.state } ∧
    (∀ fields r', decodeAuthResponse (some (.obj fields)) = .ok r' →
      decodeStrField fields "State" = some r'.State) := by
  constructor
  · simp only [HandlerFunc, if_neg hden]
    rw [hok]
  · exact fun fields r' h => (decodeAuthResponse_fields fields r' h).2.2.2.2.2

/-- C6 witness. -/
theorem handler_success_state_witness :
    ("" : String) ≠ "access_denied" ∧
    (HandlerFunc cfgOk ⟨"http://cb", none⟩ ⟨"", "c", "abc123"⟩).1 =
      .success { AccessToken := "tok", RefreshToken := "ref", ExpiresAt := 100, ExpiresIn := 60,
                 Athlete := .obj [("id", .num 7)], State := "abc123" } :=
  ⟨by decide,
    (handler_success_state cfgOk ⟨"http://cb", none⟩ ⟨"", "c", "abc123"⟩
      { AccessToken := "tok", RefreshToken := "ref", ExpiresAt := 100, ExpiresIn := 60,
        Athlete := .obj [("id", .num 7)], State := "" } (by decide) rfl).1⟩

/-- A pattern that avoids the character `a` is a prefix of `zs ++ a :: ys`
exactly when it is a prefix of `zs`: a longer match would have to cover `a`. -/
theorem prefix_append_cons {pat : List Char} {a : Char} (ha : a ∉ pat) (zs ys : List Char) :
    pat <+: zs ++ a :: ys ↔ pat <+: zs := by
  constructor
  · intro h
    rcases le_or_lt pat.length zs.length with hle | hlt
    · exact List.prefix_of_prefix_length_le h (List.prefix_append zs (a :: ys)) hle
    · exfalso
      obtain ⟨t, ht⟩ := List.prefix_of_prefix_length_le (List.prefix_append zs (a :: ys)) h
        (Nat.le_of_lt hlt)
      subst ht
      have h2 : t <+: a :: ys := (List.prefix_append_right_inj zs).1 h
      cases t with
      | nil => simp at hlt
      | cons b t' =>
          have hb : b = a := (List.cons_prefix_cons.1 h2).1
          subst hb
          exact ha (List.mem_append_right zs (List.mem_cons_self b t'))
  · intro h
    exact h.trans (List.prefix_append zs (a :: ys))

/-- Occurrence counting distributes over concatenation at a separator
character the pattern avoids. -/
theorem countOcc_append_cons (pat : List Char) (a : Char) (ha : a ∉ pat) (xs ys : List Char) :
    countOcc pat (xs ++ a :: ys) = countOcc pat xs + countOcc pat (a :: ys) := by
  induction xs with
  | nil => simp [countOcc]
  | cons c xs ih =>
      simp only [List.cons_append, List.append_eq, countOcc, ih]
      have hiff : (pat <+: c :: (xs ++ a :: ys)) ↔ (pat <+: c :: xs) := by
        rw [← List.cons_append]
        exact prefix_append_cons ha (c :: xs) ys
      simp only [hiff]
      omega

/-- Dropping a head character different from the pattern's head keeps the
occurrence count. -/
theorem countOcc_cons_head_ne {p : Char} {pat' : List Char} {c : Char} (h : p ≠ c)
    (s : List Char) : countOcc (p :: pat') (c :: s) = countOcc (p :: pat') s := by
  simp only [countOcc]
  rw [if_neg, Nat.zero_add]
  intro hpre
  exact h (List.cons_prefix_cons.1 hpre).1

/-- A pattern whose head never occurs in `s` has no occurrence in `s`. -/
theorem countOcc_eq_zero {p : Char} {pat' s : List Char} (h : p ∉ s) :
    countOcc (p :: pat') s = 0 := by
  induction s with
  | nil => rfl
  | cons c rest ih =>
      have hpc : p ≠ c := fun e => h (by rw [e]; exact List.mem_cons_self c rest)
      rw [countOcc_cons_head_ne hpc]
      exact ih fun hm => h (List.mem_cons_of_mem c hm)

/-- Every digit character is in `digitList`. -/
theorem digitChar_mem_digitList (m : Nat) (h : m < 10) : Nat.digitChar m ∈ digitList := by
  interval_cases m <;> decide

/-- Base-10 digit rendering produces digit characters only. -/
theorem toDigitsCore_mem (fuel : Nat) :
    ∀ (n : Nat) (acc : List Char), (∀ c ∈ acc, c ∈ digitList) →
      ∀ c ∈ Nat.toDigitsCore 10 fuel n acc, c ∈ digitList := by
  induction fuel with
  | zero =>
      intro n acc hacc c hc
      simp only [Nat.toDigitsCore] at hc
      exact hacc c hc
  | succ fuel ih =>
      intro n acc hacc c hc
      simp only [Nat.toDigitsCore] at hc
      have hd : Nat.digitChar (n % 10) ∈ digitList :=
        digitChar_mem_digitList _ (Nat.mod_lt n (by omega))
      by_cases h0 : n / 10 = 0
      · rw [if_pos h0] at hc
        rcases List.mem_cons.1 hc with h | h
        · exact h ▸ hd
        · exact hacc c h
      · rw [if_neg h0] at hc
        refine ih (n / 10) (Nat.digitChar (n % 10) :: acc) ?_ c hc
        intro x hx
        rcases List.mem_cons.1 hx with h | h
        · exact h ▸ hd
        · exact hacc x h

/-- The decimal rendering of a natural number consists of digit characters. -/
theorem natReprChars_mem (n : Nat) : ∀ c ∈ natReprChars n, c ∈ digitList := by
  intro c hc
  exact toDigitsCore_mem (n + 1) n [] (by intro x hx; cases hx) c hc

/-- Occurrence count of a parameter-name pattern in the authorization URL's
character list: the variable pieces (base path, client id digits, callback
URL, scope) contribute nothing when the pattern avoids them, and no
occurrence straddles a boundary because every piece is delimited by `/`, `=`
or `&`, characters no parameter name contains. -/
theorem countOcc_url_split (pat : List Char) (p : Char) (pat' : List Char)
    (hp : pat = p :: pat')
    (h1 : '/' ∉ pat) (h2 : '=' ∉ pat) (h3 : '&' ∉ pat) (hpd : p ∉ digitList)
    (bp d cb sc : List Char) (hdig : ∀ c ∈ d, c ∈ digitList)
    (hbp : countOcc pat bp = 0) (hcb : countOcc pat cb = 0) (hsc : countOcc pat sc = 0) :
    countOcc pat (bp ++ "/oauth/authorize?client_id=".toList ++ d ++
        "&response_type=code&redirect_uri=".toList ++ cb ++ "&scope=".toList ++ sc) =
      countOcc pat "/oauth/authorize?client_id".toList +
        countOcc pat "&response_type=code&redirect_uri".toList +
        countOcc pat "&scope".toList := by
  subst hp
  have hpe : p ≠ '=' := fun e => h2 (by rw [← e]; exact List.mem_cons_self p pat')
  have hpd' : p ∉ d := fun hm => hpd (hdig p hm)
  have e1 : "/oauth/authorize?client_id=".toList =
      "/oauth/authorize?client_id".toList ++ ['='] := by decide
  have e2 : "&response_type=code&redirect_uri=".toList =
      "&response_type=code&redirect_uri".toList ++ ['='] := by decide
  have e3 : "&scope=".toList = "&scope".toList ++ ['='] := by decide
  have e4 : "/oauth/authorize?client_id".toList =
      '/' :: "oauth/authorize?client_id".toList := by decide
  have e5 : "&response_type=code&redirect_uri".toList =
      '&' :: "response_type=code&redirect_uri".toList := by decide
  have e6 : "&scope".toList = '&' :: "scope".toList := by decide
  rw [e1, e2, e3, e4, e5, e6]
  simp only [List.append_assoc, List.cons_append, List.singleton_append, List.nil_append]
  rw [countOcc_append_cons _ '/' h1 bp]
  rw [hbp]
  rw [← List.cons_append]
  rw [countOcc_append_cons _ '=' h2]
  rw [countOcc_cons_head_ne hpe]
  rw [countOcc_append_cons _ '&' h3 d]
  rw [countOcc_eq_zero hpd']
  rw [← List.cons_append]
  rw [countOcc_append_cons _ '=' h2]
  rw [countOcc_cons_head_ne hpe]
  rw [countOcc_append_cons _ '&' h3 cb]
  rw [hcb]
  rw [← List.cons_append]
  rw [countOcc_append_cons _ '=' h2]
  rw [countOcc_cons_head_ne hpe]
  rw [hsc]
  omega

/-- The character list of the successful authorization URL splits into the
seven pieces interpolated by the format string. -/
theorem authorization_url_toList (g : GlobalConfig) (cb sc : String) (hid : 0 < g.ClientId) :
    (g.basePath ++ "/oauth/authorize?client_id=" ++ intRepr g.ClientId ++
        "&response_type=code&redirect_uri=" ++ cb ++ "&scope=" ++ sc).toList =
      g.basePath.toList ++ "/oauth/authorize?client_id=".toList ++
        natReprChars g.ClientId.toNat ++ "&response_type=code&redirect_uri=".toList ++
        cb.toList ++ "&scope=".toList ++ sc.toList := by
  have hrepr : intRepr g.ClientId = String.mk (natReprChars g.ClientId.toNat) := by
    rw [intRepr, if_neg (by omega)]
  rw [hrepr]
  simp only [strToList_append]
  rfl

/-- C9 amended: for positive client id, non-empty callback URL and non-empty
scope, and provided the base path, the callback URL and the scope do not
themselves contain any of the parameter-name substrings (they are
interpolated into the URL verbatim, without encoding), both builders return
the same URL, which contains exactly one occurrence each of `client_id`,
`redirect_uri` and `scope` and no occurrence of `state` or `approval_prompt`
when no state is requested and force reapproval is off. -/
theorem authorization_url_param_occurrences (g : GlobalConfig) (cb sc : String)
    (hid : 0 < g.ClientId) (hcb : cb ≠ "") (hsc : sc ≠ "")
    (hbp : avoidsParamNames g.basePath) (hcbp : avoidsParamNames cb)
    (hscp : avoidsParamNames sc) :
    ∃ u, AuthorizationURL g cb sc = .ok u ∧
      OAuthAuthenticator.AuthorizationURL g ⟨cb, none⟩ "" sc false = u ∧
      countOcc "client_id".toList u.toList = 1 ∧
      countOcc "redirect_uri".toList u.toList = 1 ∧
      countOcc "scope".toList u.toList = 1 ∧
      countOcc "state".toList u.toList = 0 ∧
      countOcc "approval_prompt".toList u.toList = 0 := by
  refine ⟨g.basePath ++ "/oauth/authorize?client_id=" ++ intRepr g.ClientId ++
      "&response_type=code&redirect_uri=" ++ cb ++ "&scope=" ++ sc, ?_, ?_, ?_, ?_, ?_, ?_, ?_⟩
  · rw [AuthorizationURL, if_neg (by omega), if_neg hcb, if_neg hsc]
  · simp [OAuthAuthenticator.AuthorizationURL]
  · rw [authorization_url_toList g cb sc hid,
      countOcc_url_split "client_id".toList 'c' "lient_id".toList (by decide) (by decide)
        (by decide) (by decide) (by decide) g.basePath.toList (natReprChars g.ClientId.toNat)
        cb.toList sc.toList (natReprChars_mem g.ClientId.toNat) (hbp _ (by decide))
        (hcbp _ (by decide)) (hscp _ (by decide))]
    decide
  · rw [authorization_url_toList g cb sc hid,
      countOcc_url_split "redirect_uri".toList 'r' "edirect_uri".toList (by decide) (by decide)
        (by decide) (by decide) (by decide) g.basePath.toList (natReprChars g.ClientId.toNat)
        cb.toList sc.toList (natReprChars_mem g.ClientId.toNat) (hbp _ (by decide))
        (hcbp _ (by decide)) (hscp _ (by decide))]
    decide
  · rw [authorization_url_toList g cb sc hid,
      countOcc_url_split "scope".toList 's' "cope".toList (by decide) (by decide)
        (by decide) (by decide) (by decide) g.basePath.toList (natReprChars g.ClientId.toNat)
        cb.toList sc.toList (natReprChars_mem g.ClientId.toNat) (hbp _ (by decide))
        (hcbp _ (by decide)) (hscp _ (by decide))]
    decide
  · rw [authorization_url_toList g cb sc hid,
      countOcc_url_split "state".toList 's' "tate".toList (by decide) (by decide)
        (by decide) (by decide) (by decide) g.basePath.toList (natReprChars g.ClientId.toNat)
        cb.toList sc.toList (natReprChars_mem g.ClientId.toNat) (hbp _ (by decide))
        (hcbp _ (by decide)) (hscp _ (by decide))]
    decide
  · rw [authorization_url_toList g cb sc hid,
      countOcc_url_split "approval_prompt".toList 'a' "pproval_prompt".toList (by decide)
        (by decide) (by decide) (by decide) (by decide) g.basePath.toList
        (natReprChars g.ClientId.toNat) cb.toList sc.toList
        (natReprChars_mem g.ClientId.toNat) (hbp _ (by decide)) (hcbp _ (by decide))
        (hscp _ (by decide))]
    decide

/-- C9 amended witness. -/
theorem authorization_url_param_occurrences_witness :
    ((0 : Int) < 42 ∧ ("http://cb.example/x" : String) ≠ "" ∧ ("public" : String) ≠ "" ∧
      avoidsParamNames cfgW.basePath ∧ avoidsParamNames "http://cb.example/x" ∧
      avoidsParamNames "public") ∧
    (∃ u, AuthorizationURL cfgW "http://cb.example/x" "public" = .ok u ∧
      OAuthAuthenticator.AuthorizationURL cfgW ⟨"http://cb.example/x", none⟩ "" "public" false =
        u ∧
      countOcc "client_id".toList u.toList = 1 ∧
      countOcc "redirect_uri".toList u.toList = 1 ∧
      countOcc "scope".toList u.toList = 1 ∧
      countOcc "state".toList u.toList = 0 ∧
      countOcc "approval_prompt".toList u.toList = 0) :=
  ⟨⟨by decide, by decide, by decide, by decide, by decide, by decide⟩,
    authorization_url_param_occurrences cfgW "http://cb.example/x" "public" (by decide)
      (by decide) (by decide) (by decide) (by decide) (by decide)⟩

set_option maxRecDepth 8000 in
/-- C9 counterexample: a positive client id, a non-empty callback URL and a
non-empty scope for which the claim's occurrence counts fail — the callback
URL's path contains the word `state`, which therefore occurs in the URL even
though no state parameter was requested. -/
theorem authorization_url_state_occurs :
    (0 : Int) < 42 ∧ ("http://mysite.example/state/cb" : String) ≠ "" ∧
    ("public" : String) ≠ "" ∧
    AuthorizationURL cfgW "http://mysite.example/state/cb" "public" = .ok urlStateCb ∧
    countOcc "state".toList urlStateCb.toList = 1 := by
  refine ⟨by decide, by decide, by decide, rfl, ?_⟩
  decide

end Strava
